import Mathlib

/-!
# xk6-mongo: the script-facing Mongo client adapter (`mongo.go`)

A shallow embedding of `mongo.go`.  The MongoDB driver is an external
collaborator, so every adapter operation takes the driver as a parameter
(`Driver`), a record with one field per driver primitive that the source
calls.  An operation runs in a `World`: the server state owned by the driver,
the trace of driver calls issued so far and the lines written to the standard
logger.  Each operation yields an `Outcome`: a value returned to the script,
a fatal exit (`log.Fatal`), or a Go panic.

The second half of the file gives a reference server (`refDriver`) used for
the behavioural consequences (round trip, limit, sort, `$set`, deletes).
-/

namespace Xk6Mongo

/-! ## Data model -/

/-- Go `map[string]string`, as an association list; a key is read with
`List.lookup`, so the first binding of a key is the one that counts. -/
abbrev StrMap := List (String × String)

/-- BSON values that occur in this adapter: `nil`, Go `int`, `string`,
a `map[string]string` (the operand of `$set`) and a generated ObjectID. -/
inductive Value where
  | null
  | int (i : Int)
  | str (s : String)
  | strMap (m : StrMap)
  | oid (n : Nat)
  deriving DecidableEq, Repr

/-- Go `bson.D`: an ordered list of `bson.E{Key, Value}` elements. -/
abbrev BsonD := List (String × Value)

/-- Go `bson.M` as decoded by the driver (a result document). -/
abbrev BsonM := List (String × Value)

/-- The zero value `bson.E{}`: key `""`, value `nil`. -/
def BsonE.zero : String × Value := ("", Value.null)

/-- A Go value handed to the driver in an `interface{}` document position:
either a `map[string]string` or a `bson.D`. -/
inductive GoDoc where
  | strMap (m : StrMap)
  | bsonD (d : BsonD)
  deriving DecidableEq, Repr

/-- Go `error` values: the driver's sentinel `mongo.ErrNoDocuments`, or any
other error. -/
inductive Err where
  | ErrNoDocuments
  | other (msg : String)
  deriving DecidableEq, Repr

/-- A driver client `*mongo.Client`, identified by its address. -/
structure MongoClient where
  addr : Nat
  deriving DecidableEq, Repr

/-- The driver's `*mongo.Database` view. -/
structure Database where
  client : MongoClient
  name : String
  deriving DecidableEq, Repr

/-- The driver's `*mongo.Collection` view. -/
structure Collection where
  client : MongoClient
  database : String
  name : String
  deriving DecidableEq, Repr

/-- `client.Database(name)`. -/
def MongoClient.Database (cl : MongoClient) (name : String) : Database :=
  ⟨cl, name⟩

/-- `db.Collection(name)`. -/
def Database.Collection (db : Database) (name : String) : Collection :=
  ⟨db.client, db.name, name⟩

/-- `options.ClientOptions`, reduced to the URI it was given. -/
structure ClientOptions where
  uri : Option String
  deriving DecidableEq, Repr

/-- `options.Client()`. -/
def ClientOptions.new : ClientOptions := ⟨none⟩

/-- `(*ClientOptions).ApplyURI`. -/
def ClientOptions.ApplyURI (_o : ClientOptions) (connURI : String) : ClientOptions :=
  ⟨some connURI⟩

/-- `options.FindOptions`, reduced to its `Limit` field (`*int64`). -/
structure FindOptions where
  Limit : Option Int
  deriving DecidableEq, Repr

/-- `options.Find()`. -/
def FindOptions.new : FindOptions := ⟨none⟩

/-- `(*FindOptions).SetLimit`. -/
def FindOptions.SetLimit (_o : FindOptions) (i : Int) : FindOptions := ⟨some i⟩

/-- `options.FindOneOptions`, reduced to its `Sort` field (named `sort`,
`Sort` being reserved). -/
structure FindOneOptions where
  sort : Option BsonD
  deriving DecidableEq, Repr

/-- `options.FindOne()`. -/
def FindOneOptions.new : FindOneOptions := ⟨none⟩

/-- `(*FindOneOptions).SetSort`. -/
def FindOneOptions.SetSort (_o : FindOneOptions) (s : BsonD) : FindOneOptions := ⟨some s⟩

/-- `options.DeleteOptions`, reduced to its `Hint` field. -/
structure DeleteOptions where
  Hint : Option BsonD
  deriving DecidableEq, Repr

/-- `options.Delete()`. -/
def DeleteOptions.new : DeleteOptions := ⟨none⟩

/-- `(*DeleteOptions).SetHint`. -/
def DeleteOptions.SetHint (_o : DeleteOptions) (h : BsonD) : DeleteOptions := ⟨some h⟩

/-! ## Driver interface, world and outcomes -/

/-- One driver primitive invocation with the arguments it carried (the
context argument is always `context.TODO()` and is left out). -/
inductive Call where
  | Connect (opts : ClientOptions)
  | InsertOne (col : Collection) (doc : GoDoc)
  | InsertMany (col : Collection) (docs : List GoDoc)
  | Find (col : Collection) (filter : GoDoc) (opts : List FindOptions)
  | All
  | FindOne (col : Collection) (filter : GoDoc) (opts : List FindOneOptions)
  | UpdateOne (col : Collection) (filter : GoDoc) (update : GoDoc)
  | DeleteOne (col : Collection) (filter : GoDoc) (opts : List DeleteOptions)
  | DeleteMany (col : Collection) (filter : GoDoc) (opts : List DeleteOptions)
  | Drop (col : Collection)
  deriving DecidableEq, Repr

/-- A line written through the standard logger. -/
inductive LogLine where
  | Printf (format : String) (arg : StrMap)
  | Fatal (e : Err)
  deriving DecidableEq, Repr

/-- The driver primitives `mongo.go` calls, over a server state `σ` and a
cursor type `κ`.  A primitive whose result value the adapter discards
(`_, err := ...`) is given by its error alone (`none` is a `nil` error).
`FindOneDecode` is `col.FindOne(...).Decode(&result)`. -/
structure Driver (σ κ : Type) where
  Connect : ClientOptions → σ → Except Err MongoClient × σ
  InsertOne : Collection → GoDoc → σ → Option Err × σ
  InsertMany : Collection → List GoDoc → σ → Option Err × σ
  Find : Collection → GoDoc → List FindOptions → σ → Except Err κ × σ
  All : κ → σ → Except Err (List BsonM) × σ
  FindOneDecode : Collection → GoDoc → List FindOneOptions → σ → Except Err BsonM × σ
  UpdateOne : Collection → GoDoc → GoDoc → σ → Option Err × σ
  DeleteOne : Collection → GoDoc → List DeleteOptions → σ → Option Err × σ
  DeleteMany : Collection → GoDoc → List DeleteOptions → σ → Option Err × σ
  Drop : Collection → σ → Option Err × σ

/-- What an operation runs in: the server behind the driver, the driver calls
issued so far (oldest first) and the logger output (oldest first). -/
structure World (σ : Type) where
  server : σ
  calls : List Call
  log : List LogLine

/-- Record a driver call and install the server state it left. -/
def World.step {σ : Type} (w : World σ) (c : Call) (s : σ) : World σ :=
  ⟨s, w.calls ++ [c], w.log⟩

/-- Append a logger line. -/
def World.logged {σ : Type} (w : World σ) (l : LogLine) : World σ :=
  ⟨w.server, w.calls, w.log ++ [l]⟩

/-- How an operation ends: it returns to the script, or `log.Fatal` ends the
process (`os.Exit(1)`), or it panics. -/
inductive Outcome (α : Type) where
  | returned (v : α)
  | fatal (e : Err)
  | panicked (e : Err)
  deriving DecidableEq, Repr

/-! ## The adapter (`mongo.go`) -/

/-- The Go struct `Client { client *mongo.Client }`. -/
structure Client where
  client : MongoClient
  deriving DecidableEq, Repr

/-- The `interface{}` that `NewClient` returns: an `error` or a `*Client`. -/
inductive NewClientResult where
  | err (e : Err)
  | handle (c : Client)
  deriving DecidableEq, Repr

/-- `func (*Mongo) NewClient(connURI string) interface{}`. -/
def NewClient {σ κ : Type} (drv : Driver σ κ) (connURI : String) (w : World σ) :
    Outcome NewClientResult × World σ :=
  let clientOptions := ClientOptions.new.ApplyURI connURI
  match drv.Connect clientOptions w.server with
  | (Except.error err, s) => (Outcome.returned (NewClientResult.err err), w.step (Call.Connect clientOptions) s)
  | (Except.ok client, s) =>
    (Outcome.returned (NewClientResult.handle ⟨client⟩), w.step (Call.Connect clientOptions) s)

/-- `func (c *Client) Insert(database, collection string, doc map[string]string) error`. -/
def Client.Insert {σ κ : Type} (drv : Driver σ κ) (c : Client) (database collection : String)
    (doc : StrMap) (w : World σ) : Outcome (Option Err) × World σ :=
  let db := c.client.Database database
  let col := db.Collection collection
  match drv.InsertOne col (GoDoc.strMap doc) w.server with
  | (some err, s) => (Outcome.returned (some err), w.step (Call.InsertOne col (GoDoc.strMap doc)) s)
  | (none, s) => (Outcome.returned none, w.step (Call.InsertOne col (GoDoc.strMap doc)) s)

/-- `func (c *Client) InsertMany(database, collection string, docs []any) error`. -/
def Client.InsertMany {σ κ : Type} (drv : Driver σ κ) (c : Client) (database collection : String)
    (docs : List GoDoc) (w : World σ) : Outcome (Option Err) × World σ :=
  let db := c.client.Database database
  let col := db.Collection collection
  match drv.InsertMany col docs w.server with
  | (some err, s) => (Outcome.returned (some err), w.step (Call.InsertMany col docs) s)
  | (none, s) => (Outcome.returned none, w.step (Call.InsertMany col docs) s)

/-- `func (c *Client) Find(database, collection string, filter interface{}, limit int64) []bson.M`. -/
def Client.Find {σ κ : Type} (drv : Driver σ κ) (c : Client) (database collection : String)
    (filter : GoDoc) (limit : Int) (w : World σ) : Outcome (List BsonM) × World σ :=
  let db := c.client.Database database
  let col := db.Collection collection
  if limit > 0 then
    let opts := FindOptions.new.SetLimit limit
    match drv.Find col filter [opts] w.server with
    | (Except.error err, s) =>
      (Outcome.fatal err, (w.step (Call.Find col filter [opts]) s).logged (LogLine.Fatal err))
    | (Except.ok cur, s) =>
      let w1 := w.step (Call.Find col filter [opts]) s
      match drv.All cur w1.server with
      | (Except.error err, s2) => (Outcome.panicked err, w1.step Call.All s2)
      | (Except.ok results, s2) => (Outcome.returned results, w1.step Call.All s2)
  else
    match drv.Find col filter [] w.server with
    | (Except.error err, s) =>
      (Outcome.fatal err, (w.step (Call.Find col filter []) s).logged (LogLine.Fatal err))
    | (Except.ok cur, s) =>
      let w1 := w.step (Call.Find col filter []) s
      match drv.All cur w1.server with
      | (Except.error err, s2) => (Outcome.panicked err, w1.step Call.All s2)
      | (Except.ok results, s2) => (Outcome.returned results, w1.step Call.All s2)

/-- `func (c *Client) FindOne(database, collection string, filter map[string]string) bson.M`;
`none` is the nil map the script sees as null. -/
def Client.FindOne {σ κ : Type} (drv : Driver σ κ) (c : Client) (database collection : String)
    (filter : StrMap) (w : World σ) : Outcome (Option BsonM) × World σ :=
  let db := c.client.Database database
  let col := db.Collection collection
  let opts := FindOneOptions.new.SetSort [("_id", Value.int 1)]
  match drv.FindOneDecode col (GoDoc.strMap filter) [opts] w.server with
  | (Except.error err, s) =>
    let w1 := w.step (Call.FindOne col (GoDoc.strMap filter) [opts]) s
    if err = Err.ErrNoDocuments then
      (Outcome.returned none, w1.logged (LogLine.Printf "No document was found for filter %v" filter))
    else
      (Outcome.fatal err, w1.logged (LogLine.Fatal err))
  | (Except.ok result, s) =>
    (Outcome.returned (some result), w.step (Call.FindOne col (GoDoc.strMap filter) [opts]) s)

/-- `func (c *Client) UpdateOne(database, collection string, filter interface{}, data map[string]string) error`. -/
def Client.UpdateOne {σ κ : Type} (drv : Driver σ κ) (c : Client) (database collection : String)
    (filter : GoDoc) (data : StrMap) (w : World σ) : Outcome (Option Err) × World σ :=
  let db := c.client.Database database
  let col := db.Collection collection
  let update := GoDoc.bsonD [("$set", Value.strMap data)]
  match drv.UpdateOne col filter update w.server with
  | (some err, s) =>
    (Outcome.fatal err, (w.step (Call.UpdateOne col filter update) s).logged (LogLine.Fatal err))
  | (none, s) => (Outcome.returned none, w.step (Call.UpdateOne col filter update) s)

/-- `func (c *Client) FindAll(database, collection string) []bson.M`; the filter
is the literal `bson.D{{}}`, a one-element document holding `bson.E{}`. -/
def Client.FindAll {σ κ : Type} (drv : Driver σ κ) (c : Client) (database collection : String)
    (w : World σ) : Outcome (List BsonM) × World σ :=
  let db := c.client.Database database
  let col := db.Collection collection
  match drv.Find col (GoDoc.bsonD [BsonE.zero]) [] w.server with
  | (Except.error err, s) =>
    (Outcome.fatal err,
      (w.step (Call.Find col (GoDoc.bsonD [BsonE.zero]) []) s).logged (LogLine.Fatal err))
  | (Except.ok cur, s) =>
    let w1 := w.step (Call.Find col (GoDoc.bsonD [BsonE.zero]) []) s
    match drv.All cur w1.server with
    | (Except.error err, s2) => (Outcome.panicked err, w1.step Call.All s2)
    | (Except.ok results, s2) => (Outcome.returned results, w1.step Call.All s2)

/-- `func (c *Client) DeleteOne(database, collection string, filter map[string]string) error`. -/
def Client.DeleteOne {σ κ : Type} (drv : Driver σ κ) (c : Client) (database collection : String)
    (filter : StrMap) (w : World σ) : Outcome (Option Err) × World σ :=
  let db := c.client.Database database
  let col := db.Collection collection
  let opts := DeleteOptions.new.SetHint [("_id", Value.int 1)]
  match drv.DeleteOne col (GoDoc.strMap filter) [opts] w.server with
  | (some err, s) =>
    (Outcome.fatal err,
      (w.step (Call.DeleteOne col (GoDoc.strMap filter) [opts]) s).logged (LogLine.Fatal err))
  | (none, s) => (Outcome.returned none, w.step (Call.DeleteOne col (GoDoc.strMap filter) [opts]) s)

/-- `func (c *Client) DeleteMany(database, collection string, filter map[string]string) error`. -/
def Client.DeleteMany {σ κ : Type} (drv : Driver σ κ) (c : Client) (database collection : String)
    (filter : StrMap) (w : World σ) : Outcome (Option Err) × World σ :=
  let db := c.client.Database database
  let col := db.Collection collection
  let opts := DeleteOptions.new.SetHint [("_id", Value.int 1)]
  match drv.DeleteMany col (GoDoc.strMap filter) [opts] w.server with
  | (some err, s) =>
    (Outcome.fatal err,
      (w.step (Call.DeleteMany col (GoDoc.strMap filter) [opts]) s).logged (LogLine.Fatal err))
  | (none, s) => (Outcome.returned none, w.step (Call.DeleteMany col (GoDoc.strMap filter) [opts]) s)

/-- `func (c *Client) DropCollection(database, collection string) error`. -/
def Client.DropCollection {σ κ : Type} (drv : Driver σ κ) (c : Client) (database collection : String)
    (w : World σ) : Outcome (Option Err) × World σ :=
  let db := c.client.Database database
  let col := db.Collection collection
  match drv.Drop col w.server with
  | (some err, s) => (Outcome.fatal err, (w.step (Call.Drop col) s).logged (LogLine.Fatal err))
  | (none, s) => (Outcome.returned none, w.step (Call.Drop col) s)

/-! ## Reference server

The driver and the server behind it are not part of this repository.  The
definitions below are a reference model of them, following the wording of
the properties they serve. -/

/-- Modelled from the spec: the driver's marshalling of a document argument,
a `map[string]string` becoming one string-valued element per entry. -/
def GoDoc.toBson : GoDoc → BsonD
  | GoDoc.strMap m => m.map (fun kv => (kv.1, Value.str kv.2))
  | GoDoc.bsonD d => d

/-- Modelled from the spec: the value a stored document has at a field; a
field that is absent reads as null, as in MongoDB. -/
def fieldOf (doc : BsonM) (k : String) : Value :=
  (doc.lookup k).getD Value.null

/-- Modelled from the spec: a filter document matches a stored document when
every field named in the filter has the given value in the stored document. -/
def filterMatches (filter : BsonD) (doc : BsonM) : Bool :=
  filter.all (fun kv => decide (fieldOf doc kv.1 = kv.2))

/-- Modelled from the spec: the server state, the documents of every
(database, collection) pair in natural order, and the next ObjectID. -/
structure Server where
  colls : String → String → List BsonM
  nextOid : Nat

/-- A server with no documents. -/
def Server.empty : Server := ⟨fun _ _ => [], 0⟩

/-- The documents of a collection. -/
def Server.docs (s : Server) (col : Collection) : List BsonM :=
  s.colls col.database col.name

/-- Replace the documents of a collection. -/
def Server.setDocs (s : Server) (col : Collection) (ds : List BsonM) : Server :=
  ⟨fun d c => if d = col.database ∧ c = col.name then ds else s.colls d c, s.nextOid⟩

/-- Modelled from the spec: a document without `_id` gets a generated one in
front. -/
def ensureID (n : Nat) (d : BsonD) : BsonD :=
  if (d.lookup "_id").isSome then d else ("_id", Value.oid n) :: d

/-- Modelled from the spec: insert one document; `_id` is a unique key. -/
def Server.insertOne (s : Server) (col : Collection) (doc : GoDoc) : Option Err × Server :=
  let d := ensureID s.nextOid doc.toBson
  if (s.docs col).any (fun e => decide (fieldOf e "_id" = fieldOf d "_id")) then
    (some (Err.other "E11000 duplicate key error"), s)
  else
    (none, ⟨(s.setDocs col (s.docs col ++ [d])).colls, s.nextOid + 1⟩)

/-- Modelled from the spec: ordered bulk insert, stopping at the first error. -/
def Server.insertMany (s : Server) (col : Collection) : List GoDoc → Option Err × Server
  | [] => (none, s)
  | d :: ds =>
    match s.insertOne col d with
    | (some e, s1) => (some e, s1)
    | (none, s1) => s1.insertMany col ds

/-- Modelled from the spec: of several option values the last one that sets
the limit wins. -/
def mergedLimit (opts : List FindOptions) : Option Int :=
  (opts.filterMap FindOptions.Limit).getLast?

/-- Modelled from the spec: a limit caps the number of documents returned;
no limit option, or limit 0, returns them all. -/
def applyLimit (l : Option Int) (ds : List BsonM) : List BsonM :=
  match l with
  | none => ds
  | some n => if n = 0 then ds else ds.take n.natAbs

/-- Modelled from the spec: the comparison key of a value, by BSON type
rank (null, number, string, embedded document, ObjectID) and then by value;
embedded documents compare equal to one another. -/
def Value.sortKey : Value → Nat ×ₗ (Int ×ₗ String)
  | Value.null => toLex (0, toLex (0, ""))
  | Value.int i => toLex (1, toLex (i, ""))
  | Value.str s => toLex (2, toLex (0, s))
  | Value.strMap _ => toLex (3, toLex (0, ""))
  | Value.oid n => toLex (4, toLex ((n : Int), ""))

/-- Modelled from the spec: the order one sort element asks for, on field `k`;
direction `-1` is descending, any other value ascending. -/
def keyLe (k : String) (dir : Value) (a b : BsonM) : Prop :=
  if dir = Value.int (-1) then (fieldOf b k).sortKey ≤ (fieldOf a k).sortKey
  else (fieldOf a k).sortKey ≤ (fieldOf b k).sortKey

instance keyLe.decidable (k : String) (dir : Value) : DecidableRel (keyLe k dir) := by
  intro a b
  unfold keyLe
  exact inferInstance

/-- Modelled from the spec: sort by a sort specification, a stable sort per
element, the last element first. -/
def sortDocs (spec : BsonD) (ds : List BsonM) : List BsonM :=
  spec.foldr (fun kd acc => acc.insertionSort (keyLe kd.1 kd.2)) ds

/-- Modelled from the spec: of several option values the last one that sets
the sort wins. -/
def mergedSort (opts : List FindOneOptions) : Option BsonD :=
  (opts.filterMap FindOneOptions.sort).getLast?

/-- Modelled from the spec: set one field, overwriting it in place when
present and appending it otherwise. -/
def setField (doc : BsonM) (k : String) (v : Value) : BsonM :=
  if (doc.lookup k).isSome then doc.map (fun kv => if kv.1 = k then (k, v) else kv)
  else doc ++ [(k, v)]

/-- Modelled from the spec: `$set` overwrites the named fields and leaves
every other field untouched. -/
def applySet (doc : BsonM) (p : StrMap) : BsonM :=
  p.foldl (fun d kv => setField d kv.1 (Value.str kv.2)) doc

/-- Modelled from the spec: the change an update document asks for; only a
single `$set` with a string map operand is understood. -/
def updateOperator (update : BsonD) : Option (BsonM → BsonM) :=
  match update with
  | [(op, Value.strMap p)] => if op = "$set" then some (fun d => applySet d p) else none
  | _ => none

/-- Modelled from the spec: change the first document that satisfies `p`. -/
def updateFirst (p : BsonM → Bool) (f : BsonM → BsonM) : List BsonM → List BsonM
  | [] => []
  | d :: ds => if p d then f d :: ds else d :: updateFirst p f ds

/-- Modelled from the spec: the reference driver over the reference server.
`Find` returns as cursor the matching documents in natural order, capped by
the limit; `FindOneDecode` returns the first matching document in the
requested sort order; `DeleteOne` removes the first matching document,
`DeleteMany` all of them; a hint does not change any result. -/
def refDriver : Driver Server (List BsonM) where
  Connect := fun _ s => (Except.ok ⟨0⟩, s)
  InsertOne := fun col doc s => s.insertOne col doc
  InsertMany := fun col docs s =>
    if docs.isEmpty then (some (Err.other "must provide at least one element in input slice"), s)
    else s.insertMany col docs
  Find := fun col filter opts s =>
    (Except.ok (applyLimit (mergedLimit opts) ((s.docs col).filter (filterMatches filter.toBson))), s)
  All := fun cur s => (Except.ok cur, s)
  FindOneDecode := fun col filter opts s =>
    match sortDocs ((mergedSort opts).getD []) ((s.docs col).filter (filterMatches filter.toBson)) with
    | [] => (Except.error Err.ErrNoDocuments, s)
    | d :: _ => (Except.ok d, s)
  UpdateOne := fun col filter update s =>
    match updateOperator update.toBson with
    | none => (some (Err.other "unknown update document"), s)
    | some f => (none, s.setDocs col (updateFirst (filterMatches filter.toBson) f (s.docs col)))
  DeleteOne := fun col filter _ s =>
    (none, s.setDocs col ((s.docs col).eraseP (filterMatches filter.toBson)))
  DeleteMany := fun col filter _ s =>
    (none, s.setDocs col ((s.docs col).filter (fun d => !filterMatches filter.toBson d)))
  Drop := fun col s => (none, s.setDocs col [])

/-- A world over the reference server with nothing called or logged yet. -/
def World.fresh (s : Server) : World Server := ⟨s, [], []⟩

/-! ## Error surface of the adapter (any driver) -/

/-- C1: NewClient, Insert and InsertMany hand the driver's error to the script
as their value and end neither fatally nor by panic.  When Connect fails with
`e`, NewClient returns `e` and no handle; when it succeeds the handle wraps
the client Connect returned.  Insert and InsertMany return exactly the error
(or nil) of InsertOne and InsertMany. -/
theorem NewClient_Insert_InsertMany_return_the_driver_error {σ κ : Type} (drv : Driver σ κ)
    (c : Client) (connURI database collection : String) (doc : StrMap) (docs : List GoDoc)
    (w : World σ) :
    (NewClient drv connURI w).1 =
      (match (drv.Connect (ClientOptions.new.ApplyURI connURI) w.server).1 with
        | Except.error e => Outcome.returned (NewClientResult.err e)
        | Except.ok cl => Outcome.returned (NewClientResult.handle (Client.mk cl))) ∧
    (Client.Insert drv c database collection doc w).1 =
      Outcome.returned
        (drv.InsertOne (Collection.mk c.client database collection) (GoDoc.strMap doc) w.server).1 ∧
    (Client.InsertMany drv c database collection docs w).1 =
      Outcome.returned
        (drv.InsertMany (Collection.mk c.client database collection) docs w.server).1 := by
  refine ⟨?_, ?_, ?_⟩
  · unfold NewClient
    rcases h : drv.Connect (ClientOptions.new.ApplyURI connURI) w.server with ⟨r, s⟩
    cases r <;> simp [h]
  · unfold Client.Insert
    simp only [MongoClient.Database, Database.Collection]
    rcases h : drv.InsertOne (Collection.mk c.client database collection) (GoDoc.strMap doc)
      w.server with ⟨r, s⟩
    cases r <;> simp
  · unfold Client.InsertMany
    simp only [MongoClient.Database, Database.Collection]
    rcases h : drv.InsertMany (Collection.mk c.client database collection) docs w.server
      with ⟨r, s⟩
    cases r <;> simp

/-- C4: FindOne returns null (a returned value, no fatal exit, no panic)
exactly when the find-one-and-decode step reports ErrNoDocuments; on any other
error it ends fatally with that error, and without error it returns the
decoded document unchanged. -/
theorem FindOne_missing_is_null_not_error {σ κ : Type} (drv : Driver σ κ) (c : Client)
    (database collection : String) (filter : StrMap) (w : World σ) :
    ((Client.FindOne drv c database collection filter w).1 = Outcome.returned none ↔
      (drv.FindOneDecode (Collection.mk c.client database collection) (GoDoc.strMap filter)
        [FindOneOptions.mk (some [("_id", Value.int 1)])] w.server).1
        = Except.error Err.ErrNoDocuments) ∧
    (Client.FindOne drv c database collection filter w).1 =
      (match (drv.FindOneDecode (Collection.mk c.client database collection)
          (GoDoc.strMap filter) [FindOneOptions.mk (some [("_id", Value.int 1)])] w.server).1 with
        | Except.error e => if e = Err.ErrNoDocuments then Outcome.returned none else Outcome.fatal e
        | Except.ok result => Outcome.returned (some result)) := by
  unfold Client.FindOne
  simp only [MongoClient.Database, Database.Collection, FindOneOptions.new, FindOneOptions.SetSort]
  rcases h : drv.FindOneDecode (Collection.mk c.client database collection) (GoDoc.strMap filter)
    [FindOneOptions.mk (some [("_id", Value.int 1)])] w.server with ⟨r, s⟩
  cases r with
  | error e =>
    by_cases he : e = Err.ErrNoDocuments
    · simp [he]
    · simp [he]
  | ok d => simp

/-- C9: UpdateOne, DeleteOne, DeleteMany and DropCollection end fatally (with
the driver's error) exactly when their driver primitive returned an error, and
otherwise return nil; none of them returns a non-nil error. -/
theorem mutations_are_fatal_or_nil {σ κ : Type} (drv : Driver σ κ) (c : Client)
    (database collection : String) (filter : GoDoc) (data sfilter : StrMap) (w : World σ) :
    ((Client.UpdateOne drv c database collection filter data w).1 =
        (match (drv.UpdateOne (Collection.mk c.client database collection) filter
            (GoDoc.bsonD [("$set", Value.strMap data)]) w.server).1 with
          | some e => Outcome.fatal e
          | none => Outcome.returned none) ∧
      (Client.DeleteOne drv c database collection sfilter w).1 =
        (match (drv.DeleteOne (Collection.mk c.client database collection) (GoDoc.strMap sfilter)
            [DeleteOptions.mk (some [("_id", Value.int 1)])] w.server).1 with
          | some e => Outcome.fatal e
          | none => Outcome.returned none) ∧
      (Client.DeleteMany drv c database collection sfilter w).1 =
        (match (drv.DeleteMany (Collection.mk c.client database collection) (GoDoc.strMap sfilter)
            [DeleteOptions.mk (some [("_id", Value.int 1)])] w.server).1 with
          | some e => Outcome.fatal e
          | none => Outcome.returned none) ∧
      (Client.DropCollection drv c database collection w).1 =
        (match (drv.Drop (Collection.mk c.client database collection) w.server).1 with
          | some e => Outcome.fatal e
          | none => Outcome.returned none)) ∧
    (∀ e : Err,
      (Client.UpdateOne drv c database collection filter data w).1 ≠ Outcome.returned (some e) ∧
      (Client.DeleteOne drv c database collection sfilter w).1 ≠ Outcome.returned (some e) ∧
      (Client.DeleteMany drv c database collection sfilter w).1 ≠ Outcome.returned (some e) ∧
      (Client.DropCollection drv c database collection w).1 ≠ Outcome.returned (some e)) := by
  have hU : (Client.UpdateOne drv c database collection filter data w).1 =
        (match (drv.UpdateOne (Collection.mk c.client database collection) filter
            (GoDoc.bsonD [("$set", Value.strMap data)]) w.server).1 with
          | some e => Outcome.fatal e
          | none => Outcome.returned none) := by
    unfold Client.UpdateOne
    simp only [MongoClient.Database, Database.Collection]
    rcases h : drv.UpdateOne (Collection.mk c.client database collection) filter
      (GoDoc.bsonD [("$set", Value.strMap data)]) w.server with ⟨r, s⟩
    cases r <;> simp
  have hD1 : (Client.DeleteOne drv c database collection sfilter w).1 =
        (match (drv.DeleteOne (Collection.mk c.client database collection) (GoDoc.strMap sfilter)
            [DeleteOptions.mk (some [("_id", Value.int 1)])] w.server).1 with
          | some e => Outcome.fatal e
          | none => Outcome.returned none) := by
    unfold Client.DeleteOne
    simp only [MongoClient.Database, Database.Collection, DeleteOptions.new, DeleteOptions.SetHint]
    rcases h : drv.DeleteOne (Collection.mk c.client database collection) (GoDoc.strMap sfilter)
      [DeleteOptions.mk (some [("_id", Value.int 1)])] w.server with ⟨r, s⟩
    cases r <;> simp
  have hDM : (Client.DeleteMany drv c database collection sfilter w).1 =
        (match (drv.DeleteMany (Collection.mk c.client database collection) (GoDoc.strMap sfilter)
            [DeleteOptions.mk (some [("_id", Value.int 1)])] w.server).1 with
          | some e => Outcome.fatal e
          | none => Outcome.returned none) := by
    unfold Client.DeleteMany
    simp only [MongoClient.Database, Database.Collection, DeleteOptions.new, DeleteOptions.SetHint]
    rcases h : drv.DeleteMany (Collection.mk c.client database collection) (GoDoc.strMap sfilter)
      [DeleteOptions.mk (some [("_id", Value.int 1)])] w.server with ⟨r, s⟩
    cases r <;> simp
  have hDr : (Client.DropCollection drv c database collection w).1 =
        (match (drv.Drop (Collection.mk c.client database collection) w.server).1 with
          | some e => Outcome.fatal e
          | none => Outcome.returned none) := by
    unfold Client.DropCollection
    simp only [MongoClient.Database, Database.Collection]
    rcases h : drv.Drop (Collection.mk c.client database collection) w.server with ⟨r, s⟩
    cases r <;> simp
  refine ⟨⟨hU, hD1, hDM, hDr⟩, ?_⟩
  intro e
  rw [hU, hD1, hDM, hDr]
  refine ⟨?_, ?_, ?_, ?_⟩
  · cases (drv.UpdateOne (Collection.mk c.client database collection) filter
      (GoDoc.bsonD [("$set", Value.strMap data)]) w.server).1 <;> simp
  · cases (drv.DeleteOne (Collection.mk c.client database collection) (GoDoc.strMap sfilter)
      [DeleteOptions.mk (some [("_id", Value.int 1)])] w.server).1 <;> simp
  · cases (drv.DeleteMany (Collection.mk c.client database collection) (GoDoc.strMap sfilter)
      [DeleteOptions.mk (some [("_id", Value.int 1)])] w.server).1 <;> simp
  · cases (drv.Drop (Collection.mk c.client database collection) w.server).1 <;> simp

/-- C10: Find (both branches) and FindAll: when the driver fails as the query
is issued the outcome is fatal and the only call made is the find call (the
cursor is not drained); when the query is issued and the drain fails the
outcome is a panic carrying that error; when both succeed the drained
documents are returned as the driver gave them.  The result type holds
documents only, so no error value is ever returned. -/
theorem Find_and_FindAll_failure_outcomes {σ κ : Type} (drv : Driver σ κ) (c : Client)
    (database collection : String) (filter : GoDoc) (limit : Int) (w : World σ) :
    ((Client.Find drv c database collection filter limit w).1,
        (Client.Find drv c database collection filter limit w).2.calls) =
      (match drv.Find (Collection.mk c.client database collection) filter
          (if limit > 0 then [FindOptions.mk (some limit)] else []) w.server with
        | (Except.error e, _) =>
          (Outcome.fatal e,
            w.calls ++ [Call.Find (Collection.mk c.client database collection) filter
              (if limit > 0 then [FindOptions.mk (some limit)] else [])])
        | (Except.ok cur, s) =>
          (match (drv.All cur s).1 with
            | Except.error e => Outcome.panicked e
            | Except.ok results => Outcome.returned results,
            w.calls ++ [Call.Find (Collection.mk c.client database collection) filter
              (if limit > 0 then [FindOptions.mk (some limit)] else []), Call.All])) ∧
    ((Client.FindAll drv c database collection w).1,
        (Client.FindAll drv c database collection w).2.calls) =
      (match drv.Find (Collection.mk c.client database collection)
          (GoDoc.bsonD [BsonE.zero]) [] w.server with
        | (Except.error e, _) =>
          (Outcome.fatal e,
            w.calls ++ [Call.Find (Collection.mk c.client database collection)
              (GoDoc.bsonD [BsonE.zero]) []])
        | (Except.ok cur, s) =>
          (match (drv.All cur s).1 with
            | Except.error e => Outcome.panicked e
            | Except.ok results => Outcome.returned results,
            w.calls ++ [Call.Find (Collection.mk c.client database collection)
              (GoDoc.bsonD [BsonE.zero]) [], Call.All])) := by
  constructor
  · unfold Client.Find
    simp only [MongoClient.Database, Database.Collection, FindOptions.new, FindOptions.SetLimit]
    by_cases hl : limit > 0
    · simp only [hl, if_true]
      rcases h : drv.Find (Collection.mk c.client database collection) filter
        [FindOptions.mk (some limit)] w.server with ⟨r, s⟩
      cases r with
      | error e => simp [World.step, World.logged]
      | ok cur =>
        simp only [World.step]
        rcases h2 : drv.All cur s with ⟨r2, s2⟩
        cases r2 <;> simp
    · simp only [hl, if_false]
      rcases h : drv.Find (Collection.mk c.client database collection) filter [] w.server
        with ⟨r, s⟩
      cases r with
      | error e => simp [World.step, World.logged]
      | ok cur =>
        simp only [World.step]
        rcases h2 : drv.All cur s with ⟨r2, s2⟩
        cases r2 <;> simp
  · unfold Client.FindAll
    simp only [MongoClient.Database, Database.Collection]
    rcases h : drv.Find (Collection.mk c.client database collection)
      (GoDoc.bsonD [BsonE.zero]) [] w.server with ⟨r, s⟩
    cases r with
    | error e => simp [World.step, World.logged]
    | ok cur =>
      simp only [World.step]
      rcases h2 : drv.All cur s with ⟨r2, s2⟩
      cases r2 <;> simp

/-! ## Requests issued, and their consequences on the reference server -/

theorem Server.docs_setDocs (s : Server) (col : Collection) (ds : List BsonM) :
    (s.setDocs col ds).docs col = ds := by
  simp [Server.docs, Server.setDocs]

/-- C3: Find issues one find call with the filter unchanged, carrying the
limit option `limit` when `limit > 0` and no option at all when `limit <= 0`
(followed by at most the drain of the cursor).  On the reference server, with
K stored documents matching the filter, Find returns `min K limit` documents
when `limit > 0` and K documents when `limit <= 0`. -/
theorem Find_limit_honoured {σ κ : Type} (drv : Driver σ κ) (c : Client)
    (database collection : String) (filter : GoDoc) (limit : Int) (w : World σ)
    (ws : World Server) :
    (∃ rest, (Client.Find drv c database collection filter limit w).2.calls =
        w.calls ++ Call.Find (Collection.mk c.client database collection) filter
          (if limit > 0 then [FindOptions.mk (some limit)] else []) :: rest ∧
        (rest = [] ∨ rest = [Call.All])) ∧
    (∃ rs, (Client.Find refDriver c database collection filter limit ws).1 = Outcome.returned rs ∧
      rs.length =
        if limit > 0 then
          min ((ws.server.docs (Collection.mk c.client database collection)).filter
            (filterMatches filter.toBson)).length limit.toNat
        else
          ((ws.server.docs (Collection.mk c.client database collection)).filter
            (filterMatches filter.toBson)).length) := by
  constructor
  · unfold Client.Find
    simp only [MongoClient.Database, Database.Collection, FindOptions.new, FindOptions.SetLimit]
    by_cases hl : limit > 0
    · simp only [hl, if_true]
      rcases h : drv.Find (Collection.mk c.client database collection) filter
        [FindOptions.mk (some limit)] w.server with ⟨r, s⟩
      cases r with
      | error e => exact ⟨[], by simp [World.step, World.logged], Or.inl rfl⟩
      | ok cur =>
        simp only [World.step]
        rcases h2 : drv.All cur s with ⟨r2, s2⟩
        cases r2 <;> exact ⟨[Call.All], by simp, Or.inr rfl⟩
    · simp only [hl, if_false]
      rcases h : drv.Find (Collection.mk c.client database collection) filter [] w.server
        with ⟨r, s⟩
      cases r with
      | error e => exact ⟨[], by simp [World.step, World.logged], Or.inl rfl⟩
      | ok cur =>
        simp only [World.step]
        rcases h2 : drv.All cur s with ⟨r2, s2⟩
        cases r2 <;> exact ⟨[Call.All], by simp, Or.inr rfl⟩
  · unfold Client.Find
    by_cases hl : limit > 0
    · have h0 : limit ≠ 0 := by omega
      have h1 : limit.natAbs = limit.toNat := by omega
      simp [hl, h0, refDriver, World.step, FindOptions.new, FindOptions.SetLimit, mergedLimit,
        applyLimit, MongoClient.Database, Database.Collection, h1]
      exact Nat.min_comm _ _
    · simp [hl, refDriver, World.step, mergedLimit, applyLimit, MongoClient.Database,
        Database.Collection]

theorem fieldOf_cons (kv : String × Value) (d : BsonM) (k : String) :
    fieldOf (kv :: d) k = if k = kv.1 then kv.2 else fieldOf d k := by
  rcases kv with ⟨a, b⟩
  by_cases h : k = a
  · subst h
    simp [fieldOf, List.lookup]
  · have hb : (k == a) = false := by simpa using h
    simp [fieldOf, List.lookup, hb, h]

theorem fieldOf_map_replace (d : BsonM) (j k : String) (v : Value) (h : k ≠ j) :
    fieldOf (d.map (fun kv => if kv.1 = j then (j, v) else kv)) k = fieldOf d k := by
  induction d with
  | nil => rfl
  | cons x t ih =>
    rw [List.map_cons, fieldOf_cons, fieldOf_cons, ih]
    by_cases hx : x.1 = j
    · have hkx : k ≠ x.1 := by rw [hx]; exact h
      simp [hx, h, hkx]
    · simp [hx]

theorem fieldOf_append_single (d : BsonM) (j k : String) (v : Value) (h : k ≠ j) :
    fieldOf (d ++ [(j, v)]) k = fieldOf d k := by
  induction d with
  | nil =>
    rw [List.nil_append, fieldOf_cons]
    simp [h]
  | cons x t ih => rw [List.cons_append, fieldOf_cons, fieldOf_cons, ih]

theorem fieldOf_setField_ne (d : BsonM) (j k : String) (v : Value) (h : k ≠ j) :
    fieldOf (setField d j v) k = fieldOf d k := by
  unfold setField
  split
  · exact fieldOf_map_replace d j k v h
  · exact fieldOf_append_single d j k v h

theorem fieldOf_applySet (p : StrMap) (d : BsonM) (k : String) (hk : k ∉ p.map Prod.fst) :
    fieldOf (applySet d p) k = fieldOf d k := by
  unfold applySet
  induction p generalizing d with
  | nil => rfl
  | cons x t ih =>
    simp only [List.map_cons, List.mem_cons, not_or] at hk
    rw [List.foldl_cons, ih _ hk.2]
    exact fieldOf_setField_ne d x.1 k _ hk.1

theorem map_fieldOf_updateFirst (q : BsonM → Bool) (f : BsonM → BsonM) (k : String)
    (hf : ∀ d, fieldOf (f d) k = fieldOf d k) (ds : List BsonM) :
    (updateFirst q f ds).map (fun d => fieldOf d k) = ds.map (fun d => fieldOf d k) := by
  induction ds with
  | nil => rfl
  | cons x t ih =>
    unfold updateFirst
    split
    · simp [hf]
    · simp [ih]

theorem length_filter_eraseP (q : BsonM → Bool) (ds : List BsonM) :
    ((ds.eraseP q).filter q).length = (ds.filter q).length - 1 := by
  induction ds with
  | nil => rfl
  | cons x t ih =>
    by_cases hx : q x = true
    · simp [List.eraseP_cons, hx]
    · simp [List.eraseP_cons, hx, ih]

theorem filter_filter_not (q : BsonM → Bool) (ds : List BsonM) :
    (ds.filter (fun d => !q d)).filter q = [] := by
  induction ds with
  | nil => rfl
  | cons x t ih =>
    by_cases hx : q x = true
    · simp [hx, ih]
    · simp [hx, ih]

theorem keyLe_ascending (k : String) (a b : BsonM) :
    keyLe k (Value.int 1) a b ↔ (fieldOf a k).sortKey ≤ (fieldOf b k).sortKey := by
  have h : ¬ (Value.int 1 = Value.int (-1)) := by decide
  simp [keyLe, h]

theorem insertionSort_head_least (k : String) (dir : Value) (ds : List BsonM) (hne : ds ≠ []) :
    ∃ r t, ds.insertionSort (keyLe k dir) = r :: t ∧ r ∈ ds ∧ ∀ d ∈ ds, keyLe k dir r d := by
  haveI hTotal : IsTotal BsonM (keyLe k dir) := ⟨by
    intro a b
    unfold keyLe
    split
    · exact le_total _ _
    · exact le_total _ _⟩
  haveI hTrans : IsTrans BsonM (keyLe k dir) := ⟨by
    intro a b c
    unfold keyLe
    split
    · exact fun h1 h2 => le_trans h2 h1
    · exact fun h1 h2 => le_trans h1 h2⟩
  have hrefl : ∀ a, keyLe k dir a a := by
    intro a
    unfold keyLe
    split <;> exact le_refl _
  have hperm := List.perm_insertionSort (keyLe k dir) ds
  have hsorted := List.sorted_insertionSort (keyLe k dir) ds
  cases hs : ds.insertionSort (keyLe k dir) with
  | nil =>
    rw [hs] at hperm
    exact absurd hperm.symm.eq_nil hne
  | cons r t =>
    rw [hs] at hperm hsorted
    refine ⟨r, t, rfl, hperm.subset (List.mem_cons_self r t), ?_⟩
    intro d hd
    have hd2 : d ∈ r :: t := hperm.symm.subset hd
    rcases List.mem_cons.mp hd2 with h | h
    · rw [h]
      exact hrefl r
    · exact List.rel_of_sorted_cons hsorted d h

/-- C5: UpdateOne sends the filter unchanged and, as update document, the
one-element document with key "$set" and value the patch.  On the reference
server: after inserting a:"1", b:"2" (in either element order) into an empty
collection, UpdateOne with filter a:"1" and patch b:"9" leaves one stored
document with a = "1" and b = "9"; and for any state, filter and patch,
UpdateOne returns nil and every field `k` not named in the patch keeps its
value in every stored document. -/
theorem UpdateOne_is_field_set_not_replace {σ κ : Type} (drv : Driver σ κ) (c : Client)
    (database collection : String) (filter : GoDoc) (p : StrMap) (w : World σ)
    (ws : World Server) (k : String) (hk : k ∉ p.map Prod.fst) :
    (Client.UpdateOne drv c database collection filter p w).2.calls =
      w.calls ++ [Call.UpdateOne (Collection.mk c.client database collection) filter
        (GoDoc.bsonD [("$set", Value.strMap p)])] ∧
    (∀ doc ∈ [[("a", "1"), ("b", "2")], [("b", "2"), ("a", "1")]],
      ((Client.UpdateOne refDriver (Client.mk (MongoClient.mk 0)) "t" "c"
          (GoDoc.strMap [("a", "1")]) [("b", "9")]
          (Client.Insert refDriver (Client.mk (MongoClient.mk 0)) "t" "c" doc
            (World.fresh Server.empty)).2).2.server.docs
        (Collection.mk (MongoClient.mk 0) "t" "c")).map
          (fun d => (fieldOf d "a", fieldOf d "b")) = [(Value.str "1", Value.str "9")]) ∧
    (Client.UpdateOne refDriver c database collection filter p ws).1 = Outcome.returned none ∧
    ((Client.UpdateOne refDriver c database collection filter p ws).2.server.docs
        (Collection.mk c.client database collection)).map (fun d => fieldOf d k) =
      (ws.server.docs (Collection.mk c.client database collection)).map (fun d => fieldOf d k) := by
  refine ⟨?_, by decide, ?_, ?_⟩
  · unfold Client.UpdateOne
    simp only [MongoClient.Database, Database.Collection]
    rcases h : drv.UpdateOne (Collection.mk c.client database collection) filter
      (GoDoc.bsonD [("$set", Value.strMap p)]) w.server with ⟨r, s⟩
    cases r <;> simp [World.step, World.logged]
  · simp [Client.UpdateOne, refDriver, updateOperator, GoDoc.toBson]
  · simp only [Client.UpdateOne, refDriver, updateOperator, GoDoc.toBson, if_true,
      MongoClient.Database, Database.Collection, World.step, Server.docs_setDocs]
    exact map_fieldOf_updateFirst _ _ k (fun d => fieldOf_applySet p d k hk) _

/-- Witness for C5: two stored documents, patch b:"9", field "a" kept. -/
theorem UpdateOne_is_field_set_not_replace_witness :
    "a" ∉ List.map Prod.fst [("b", "9")] ∧
    ((Client.UpdateOne refDriver (Client.mk (MongoClient.mk 0)) "t" "c"
        (GoDoc.strMap [("a", "1")]) [("b", "9")]
        (World.fresh (Server.mk (fun _ _ =>
          [[("a", Value.str "0"), ("b", Value.str "2")],
            [("a", Value.str "1"), ("b", Value.str "2")]]) 0))).2.server.docs
      (Collection.mk (MongoClient.mk 0) "t" "c")).map (fun d => fieldOf d "a") =
    ((World.fresh (Server.mk (fun _ _ =>
          [[("a", Value.str "0"), ("b", Value.str "2")],
            [("a", Value.str "1"), ("b", Value.str "2")]]) 0)).server.docs
      (Collection.mk (MongoClient.mk 0) "t" "c")).map (fun d => fieldOf d "a") :=
  ⟨by decide,
    (UpdateOne_is_field_set_not_replace refDriver (Client.mk (MongoClient.mk 0)) "t" "c"
      (GoDoc.strMap [("a", "1")]) [("b", "9")] (World.fresh Server.empty)
      (World.fresh (Server.mk (fun _ _ =>
          [[("a", Value.str "0"), ("b", Value.str "2")],
            [("a", Value.str "1"), ("b", Value.str "2")]]) 0)) "a" (by decide)).2.2.2⟩

/-- C7: FindOne sends the filter unchanged with the sort specification
`_id` ascending (value 1) as its only option.  On the reference server, when
some stored document matches the filter, FindOne returns a stored matching
document whose `_id` is least among the matching documents. -/
theorem FindOne_deterministic_single_pick {σ κ : Type} (drv : Driver σ κ) (c : Client)
    (database collection : String) (filter : StrMap) (w : World σ) (ws : World Server)
    (hmatch : ∃ d ∈ ws.server.docs (Collection.mk c.client database collection),
      filterMatches (GoDoc.strMap filter).toBson d = true) :
    (Client.FindOne drv c database collection filter w).2.calls =
      w.calls ++ [Call.FindOne (Collection.mk c.client database collection) (GoDoc.strMap filter)
        [FindOneOptions.mk (some [("_id", Value.int 1)])]] ∧
    ∃ r, (Client.FindOne refDriver c database collection filter ws).1 = Outcome.returned (some r) ∧
      r ∈ ws.server.docs (Collection.mk c.client database collection) ∧
      filterMatches (GoDoc.strMap filter).toBson r = true ∧
      ∀ d ∈ ws.server.docs (Collection.mk c.client database collection),
        filterMatches (GoDoc.strMap filter).toBson d = true →
          (fieldOf r "_id").sortKey ≤ (fieldOf d "_id").sortKey := by
  constructor
  · unfold Client.FindOne
    simp only [MongoClient.Database, Database.Collection, FindOneOptions.new,
      FindOneOptions.SetSort]
    rcases h : drv.FindOneDecode (Collection.mk c.client database collection)
      (GoDoc.strMap filter) [FindOneOptions.mk (some [("_id", Value.int 1)])] w.server with ⟨r, s⟩
    cases r with
    | error e =>
      by_cases he : e = Err.ErrNoDocuments
      · simp [he, World.step, World.logged]
      · simp [he, World.step, World.logged]
    | ok d => simp [World.step]
  · have hne : (ws.server.docs (Collection.mk c.client database collection)).filter
        (filterMatches (GoDoc.strMap filter).toBson) ≠ [] := by
      rcases hmatch with ⟨d, hd, hm⟩
      intro h0
      have : d ∈ (ws.server.docs (Collection.mk c.client database collection)).filter
          (filterMatches (GoDoc.strMap filter).toBson) := List.mem_filter.mpr ⟨hd, hm⟩
      rw [h0] at this
      exact List.not_mem_nil _ this
    rcases insertionSort_head_least "_id" (Value.int 1) _ hne with ⟨r, t, hs, hr, hmin⟩
    refine ⟨r, ?_, (List.mem_filter.mp hr).1, (List.mem_filter.mp hr).2, ?_⟩
    · simp [Client.FindOne, refDriver, mergedSort, sortDocs, FindOneOptions.new,
        FindOneOptions.SetSort, MongoClient.Database, Database.Collection, hs]
    · intro d hd hm
      exact (keyLe_ascending "_id" r d).mp (hmin d (List.mem_filter.mpr ⟨hd, hm⟩))

/-- Witness for C7: three stored documents, two of them matching tag:"x". -/
theorem FindOne_deterministic_single_pick_witness :
    (∃ d ∈ (World.fresh (Server.mk (fun _ _ =>
        [[("_id", Value.oid 7), ("tag", Value.str "x")],
          [("_id", Value.oid 1), ("tag", Value.str "y")],
          [("_id", Value.oid 3), ("tag", Value.str "x")]]) 8)).server.docs
        (Collection.mk (MongoClient.mk 0) "t" "c"),
      filterMatches (GoDoc.strMap [("tag", "x")]).toBson d = true) ∧
    ∃ r, (Client.FindOne refDriver (Client.mk (MongoClient.mk 0)) "t" "c" [("tag", "x")]
        (World.fresh (Server.mk (fun _ _ =>
        [[("_id", Value.oid 7), ("tag", Value.str "x")],
          [("_id", Value.oid 1), ("tag", Value.str "y")],
          [("_id", Value.oid 3), ("tag", Value.str "x")]]) 8))).1 = Outcome.returned (some r) ∧
      r ∈ (World.fresh (Server.mk (fun _ _ =>
        [[("_id", Value.oid 7), ("tag", Value.str "x")],
          [("_id", Value.oid 1), ("tag", Value.str "y")],
          [("_id", Value.oid 3), ("tag", Value.str "x")]]) 8)).server.docs
        (Collection.mk (MongoClient.mk 0) "t" "c") ∧
      filterMatches (GoDoc.strMap [("tag", "x")]).toBson r = true ∧
      ∀ d ∈ (World.fresh (Server.mk (fun _ _ =>
        [[("_id", Value.oid 7), ("tag", Value.str "x")],
          [("_id", Value.oid 1), ("tag", Value.str "y")],
          [("_id", Value.oid 3), ("tag", Value.str "x")]]) 8)).server.docs
        (Collection.mk (MongoClient.mk 0) "t" "c"),
        filterMatches (GoDoc.strMap [("tag", "x")]).toBson d = true →
          (fieldOf r "_id").sortKey ≤ (fieldOf d "_id").sortKey :=
  ⟨⟨[("_id", Value.oid 7), ("tag", Value.str "x")], by decide, by decide⟩,
    (FindOne_deterministic_single_pick refDriver (Client.mk (MongoClient.mk 0)) "t" "c"
      [("tag", "x")] (World.fresh Server.empty)
      (World.fresh (Server.mk (fun _ _ =>
        [[("_id", Value.oid 7), ("tag", Value.str "x")],
          [("_id", Value.oid 1), ("tag", Value.str "y")],
          [("_id", Value.oid 3), ("tag", Value.str "x")]]) 8))
      ⟨[("_id", Value.oid 7), ("tag", Value.str "x")], by decide, by decide⟩).2⟩

/-- C8: DeleteOne calls the delete-one primitive and DeleteMany the
delete-many primitive, each exactly once, with the filter unchanged and the
hint `_id` ascending (value 1) as only option.  On the reference server, with
K >= 2 stored documents matching the filter, DeleteOne leaves K-1 matching
documents and DeleteMany leaves none. -/
theorem DeleteOne_DeleteMany_hint_and_effect {σ κ : Type} (drv : Driver σ κ) (c : Client)
    (database collection : String) (filter : StrMap) (w : World σ) (ws : World Server)
    (_hK : 2 ≤ ((ws.server.docs (Collection.mk c.client database collection)).filter
      (filterMatches (GoDoc.strMap filter).toBson)).length) :
    (Client.DeleteOne drv c database collection filter w).2.calls =
      w.calls ++ [Call.DeleteOne (Collection.mk c.client database collection)
        (GoDoc.strMap filter) [DeleteOptions.mk (some [("_id", Value.int 1)])]] ∧
    (Client.DeleteMany drv c database collection filter w).2.calls =
      w.calls ++ [Call.DeleteMany (Collection.mk c.client database collection)
        (GoDoc.strMap filter) [DeleteOptions.mk (some [("_id", Value.int 1)])]] ∧
    ((((Client.DeleteOne refDriver c database collection filter ws).2.server.docs
        (Collection.mk c.client database collection)).filter
        (filterMatches (GoDoc.strMap filter).toBson)).length =
      ((ws.server.docs (Collection.mk c.client database collection)).filter
        (filterMatches (GoDoc.strMap filter).toBson)).length - 1) ∧
    (((Client.DeleteMany refDriver c database collection filter ws).2.server.docs
        (Collection.mk c.client database collection)).filter
        (filterMatches (GoDoc.strMap filter).toBson)).length = 0 := by
  refine ⟨?_, ?_, ?_, ?_⟩
  · unfold Client.DeleteOne
    simp only [MongoClient.Database, Database.Collection, DeleteOptions.new, DeleteOptions.SetHint]
    rcases h : drv.DeleteOne (Collection.mk c.client database collection) (GoDoc.strMap filter)
      [DeleteOptions.mk (some [("_id", Value.int 1)])] w.server with ⟨r, s⟩
    cases r <;> simp [World.step, World.logged]
  · unfold Client.DeleteMany
    simp only [MongoClient.Database, Database.Collection, DeleteOptions.new, DeleteOptions.SetHint]
    rcases h : drv.DeleteMany (Collection.mk c.client database collection) (GoDoc.strMap filter)
      [DeleteOptions.mk (some [("_id", Value.int 1)])] w.server with ⟨r, s⟩
    cases r <;> simp [World.step, World.logged]
  · simp only [Client.DeleteOne, refDriver, MongoClient.Database, Database.Collection,
      World.step, Server.docs_setDocs]
    exact length_filter_eraseP _ _
  · simp only [Client.DeleteMany, refDriver, MongoClient.Database, Database.Collection,
      World.step, Server.docs_setDocs]
    rw [filter_filter_not]
    rfl

/-- Witness for C8: three stored documents, two of them matching tag:"x". -/
theorem DeleteOne_DeleteMany_hint_and_effect_witness :
    2 ≤ (((World.fresh (Server.mk (fun _ _ =>
        [[("_id", Value.oid 0), ("tag", Value.str "x")],
          [("_id", Value.oid 1), ("tag", Value.str "y")],
          [("_id", Value.oid 2), ("tag", Value.str "x")]]) 3)).server.docs
        (Collection.mk (MongoClient.mk 0) "t" "c")).filter
        (filterMatches (GoDoc.strMap [("tag", "x")]).toBson)).length ∧
    (((Client.DeleteOne refDriver (Client.mk (MongoClient.mk 0)) "t" "c" [("tag", "x")]
        (World.fresh (Server.mk (fun _ _ =>
        [[("_id", Value.oid 0), ("tag", Value.str "x")],
          [("_id", Value.oid 1), ("tag", Value.str "y")],
          [("_id", Value.oid 2), ("tag", Value.str "x")]]) 3))).2.server.docs
        (Collection.mk (MongoClient.mk 0) "t" "c")).filter
        (filterMatches (GoDoc.strMap [("tag", "x")]).toBson)).length =
      (((World.fresh (Server.mk (fun _ _ =>
        [[("_id", Value.oid 0), ("tag", Value.str "x")],
          [("_id", Value.oid 1), ("tag", Value.str "y")],
          [("_id", Value.oid 2), ("tag", Value.str "x")]]) 3)).server.docs
        (Collection.mk (MongoClient.mk 0) "t" "c")).filter
        (filterMatches (GoDoc.strMap [("tag", "x")]).toBson)).length - 1 ∧
    (((Client.DeleteMany refDriver (Client.mk (MongoClient.mk 0)) "t" "c" [("tag", "x")]
        (World.fresh (Server.mk (fun _ _ =>
        [[("_id", Value.oid 0), ("tag", Value.str "x")],
          [("_id", Value.oid 1), ("tag", Value.str "y")],
          [("_id", Value.oid 2), ("tag", Value.str "x")]]) 3))).2.server.docs
        (Collection.mk (MongoClient.mk 0) "t" "c")).filter
        (filterMatches (GoDoc.strMap [("tag", "x")]).toBson)).length = 0 :=
  ⟨by decide,
    (DeleteOne_DeleteMany_hint_and_effect refDriver (Client.mk (MongoClient.mk 0)) "t" "c"
      [("tag", "x")] (World.fresh Server.empty)
      (World.fresh (Server.mk (fun _ _ =>
        [[("_id", Value.oid 0), ("tag", Value.str "x")],
          [("_id", Value.oid 1), ("tag", Value.str "y")],
          [("_id", Value.oid 2), ("tag", Value.str "x")]]) 3)) (by decide)).2.2⟩

/-! ## The filter of FindAll -/

/-- What FindAll does: it is Find with the one-element filter `bson.D{{}}`
(key `""`, value nil) and limit 0, for every driver and world. -/
theorem FindAll_eq_Find_zero_element {σ κ : Type} (drv : Driver σ κ) (c : Client)
    (database collection : String) (w : World σ) :
    Client.FindAll drv c database collection w =
      Client.Find drv c database collection (GoDoc.bsonD [BsonE.zero]) 0 w := by
  simp [Client.FindAll, Client.Find]

/-- On the reference server the filter `bson.D{{}}` selects the stored
documents whose field `""` is absent or null. -/
theorem filterMatches_zero_element (d : BsonM) :
    filterMatches (GoDoc.bsonD [BsonE.zero]).toBson d = decide (fieldOf d "" = Value.null) := by
  simp [filterMatches, GoDoc.toBson, BsonE.zero]

theorem lookup_toBson_strMap (d : StrMap) (k : String) :
    (GoDoc.strMap d).toBson.lookup k = (d.lookup k).map Value.str := by
  induction d with
  | nil => rfl
  | cons x t ih =>
    simp only [GoDoc.toBson, List.map_cons] at ih ⊢
    by_cases h : k = x.1
    · subst h
      simp [List.lookup]
    · have hb : (k == x.1) = false := by simpa using h
      simp [List.lookup, hb, ih]

theorem fieldOf_ensureID (n : Nat) (d : StrMap) (k : String) (v : String)
    (h : d.lookup k = some v) :
    fieldOf (ensureID n (GoDoc.strMap d).toBson) k = Value.str v := by
  unfold ensureID
  split
  · simp [fieldOf, lookup_toBson_strMap, h]
  · rename_i hid
    rw [lookup_toBson_strMap] at hid
    have hk : k ≠ "_id" := by
      intro hk
      rw [hk] at h
      simp [h] at hid
    rw [fieldOf_cons]
    simp [hk, fieldOf, lookup_toBson_strMap, h]

theorem fieldOf_ensureID_absent (n : Nat) (d : StrMap) (k : String) (hk : k ≠ "_id")
    (h : d.lookup k = none) :
    fieldOf (ensureID n (GoDoc.strMap d).toBson) k = Value.null := by
  unfold ensureID
  split
  · simp [fieldOf, lookup_toBson_strMap, h]
  · rw [fieldOf_cons]
    simp [hk, fieldOf, lookup_toBson_strMap, h]

/-- The round trip does hold on the reference server for every document that
has no field named "": inserted into an empty collection, it is the one
document FindAll returns, and it agrees with the inserted map on every key. -/
theorem Insert_FindAll_round_trip_without_empty_key (c : Client) (database collection : String)
    (d : StrMap) (ws : World Server)
    (hempty : ws.server.docs (Collection.mk c.client database collection) = [])
    (hkey : d.lookup "" = none) :
    (Client.Insert refDriver c database collection d ws).1 = Outcome.returned none ∧
    ∃ r, (Client.FindAll refDriver c database collection
        (Client.Insert refDriver c database collection d ws).2).1 = Outcome.returned [r] ∧
      ∀ k v, d.lookup k = some v → fieldOf r k = Value.str v := by
  have hnull : fieldOf (ensureID ws.server.nextOid (GoDoc.strMap d).toBson) "" = Value.null :=
    fieldOf_ensureID_absent _ d "" (by decide) hkey
  have hdocs : ((Client.Insert refDriver c database collection d ws).2).server.docs
      (Collection.mk c.client database collection) =
        [ensureID ws.server.nextOid (GoDoc.strMap d).toBson] := by
    simp [Client.Insert, refDriver, Server.insertOne, hempty, MongoClient.Database,
      Database.Collection, World.step, Server.docs, Server.setDocs]
    simp [Server.docs] at hempty
    simp [hempty]
  refine ⟨?_, ensureID ws.server.nextOid (GoDoc.strMap d).toBson, ?_, ?_⟩
  · simp [Client.Insert, refDriver, Server.insertOne, hempty, MongoClient.Database,
      Database.Collection]
  · have hF : ∀ w2 : World Server,
        w2.server.docs (Collection.mk c.client database collection) =
          [ensureID ws.server.nextOid (GoDoc.strMap d).toBson] →
        (Client.FindAll refDriver c database collection w2).1 =
          Outcome.returned [ensureID ws.server.nextOid (GoDoc.strMap d).toBson] := by
      intro w2 h2
      simp [Client.FindAll, refDriver, mergedLimit, applyLimit, MongoClient.Database,
        Database.Collection, World.step, h2, filterMatches_zero_element, hnull]
    exact hF _ hdocs
  · intro k v hkv
    exact fieldOf_ensureID _ d k v hkv

/-- C2 (evaluation at the failing input): on the reference server, inserting
the document with the single key "" (value "x") into an empty collection
succeeds and stores it, yet FindAll then returns the empty sequence while Find
with the empty filter and no limit returns the stored document. -/
theorem FindAll_misses_document_with_empty_key :
    (Client.Insert refDriver (Client.mk (MongoClient.mk 0)) "t" "c" [("", "x")]
        (World.fresh Server.empty)).1 = Outcome.returned none ∧
    (Client.FindAll refDriver (Client.mk (MongoClient.mk 0)) "t" "c"
        (Client.Insert refDriver (Client.mk (MongoClient.mk 0)) "t" "c" [("", "x")]
          (World.fresh Server.empty)).2).1 = Outcome.returned [] ∧
    (Client.Find refDriver (Client.mk (MongoClient.mk 0)) "t" "c" (GoDoc.bsonD []) 0
        (Client.Insert refDriver (Client.mk (MongoClient.mk 0)) "t" "c" [("", "x")]
          (World.fresh Server.empty)).2).1 =
      Outcome.returned [[("_id", Value.oid 0), ("", Value.str "x")]] := by
  decide

/-- C6 (evaluation at the failing input): the find call FindAll issues carries
the one-element filter with key "" and value nil, the find call of Find with
the empty document and limit 0 carries the zero-element filter; the options
agree (none), the filters differ, and on a reference server that stores one
document with field "" set to "x" FindAll returns nothing while Find returns
that document. -/
theorem FindAll_request_differs_from_Find_empty_filter :
    (Client.FindAll refDriver (Client.mk (MongoClient.mk 0)) "t" "c"
        (World.fresh (Server.mk (fun _ _ => [[("_id", Value.oid 0), ("", Value.str "x")]]) 1))).2.calls
      = [Call.Find (Collection.mk (MongoClient.mk 0) "t" "c") (GoDoc.bsonD [("", Value.null)]) [],
          Call.All] ∧
    (Client.Find refDriver (Client.mk (MongoClient.mk 0)) "t" "c" (GoDoc.bsonD []) 0
        (World.fresh (Server.mk (fun _ _ => [[("_id", Value.oid 0), ("", Value.str "x")]]) 1))).2.calls
      = [Call.Find (Collection.mk (MongoClient.mk 0) "t" "c") (GoDoc.bsonD []) [], Call.All] ∧
    (Client.FindAll refDriver (Client.mk (MongoClient.mk 0)) "t" "c"
        (World.fresh (Server.mk (fun _ _ => [[("_id", Value.oid 0), ("", Value.str "x")]]) 1))).1
      = Outcome.returned [] ∧
    (Client.Find refDriver (Client.mk (MongoClient.mk 0)) "t" "c" (GoDoc.bsonD []) 0
        (World.fresh (Server.mk (fun _ _ => [[("_id", Value.oid 0), ("", Value.str "x")]]) 1))).1
      = Outcome.returned [[("_id", Value.oid 0), ("", Value.str "x")]] := by
  decide

end Xk6Mongo
